import Mathlib

/-!
Verification of the cesar transcription pipeline.

The definitions below embed the Python sources of the repository
(`cesar/timestamp_aligner.py`, `cesar/orchestrator.py`, `cesar/api/worker.py`)
shallowly in Lean: Python `float` times become `ℚ`, Python `str` text becomes
`List Char`, exceptions become explicit error sums, and file/side effects
become an explicit event trace.  Definitions named `spec_*` instead follow the
wording of the specification and are compared against the embedded code.
-/

attribute [local semireducible] Rat.mul Rat.add Rat.sub Rat.inv

namespace Cesar

/-- A Python string, embedded as its list of characters. -/
abbrev PyStr := List Char

/-- Helper for `pySplit`: walks the characters, accumulating the current word
(reversed); whitespace ends the current word. -/
def pySplitAux : List Char → List Char → List PyStr
  | [], acc => if acc = [] then [] else [acc.reverse]
  | c :: cs, acc =>
    if c.isWhitespace then
      (if acc = [] then [] else [acc.reverse]) ++ pySplitAux cs []
    else
      pySplitAux cs (c :: acc)

/-- Python `str.split()` with no argument: split on runs of whitespace,
dropping empty pieces. -/
def pySplit (s : PyStr) : List PyStr := pySplitAux s []

/-- Python `sep.join(words)`. -/
def pyJoin (sep : PyStr) : List PyStr → PyStr
  | [] => []
  | [w] => w
  | w :: ws => w ++ sep ++ pyJoin sep ws

/-- Python `int()` applied to a number: truncation toward zero
(`Int.tdiv` of the reduced numerator by the positive denominator). -/
def pyTrunc (q : ℚ) : ℤ := Int.tdiv q.num q.den

/-- Floor of a rational, computably. -/
def ratFloor (q : ℚ) : ℤ := Int.fdiv q.num q.den

/-- Python `round()` to an integer: nearest, ties to even. -/
def pyRound (q : ℚ) : ℤ :=
  if q - (ratFloor q : ℚ) = 1/2 then
    (if ratFloor q % 2 = 0 then ratFloor q else ratFloor q + 1)
  else ratFloor (q + 1/2)

/-- `cesar.diarization.SpeakerSegment`. -/
structure SpeakerSegment where
  start : ℚ
  end_ : ℚ
  speaker : String
deriving DecidableEq, Repr

/-- `cesar.diarization.DiarizationResult`. -/
structure DiarizationResult where
  segments : List SpeakerSegment
  speaker_count : ℕ
  audio_duration : ℚ
deriving DecidableEq, Repr

/-- `cesar.timestamp_aligner.TranscriptionSegment`. -/
structure TranscriptionSegment where
  start : ℚ
  end_ : ℚ
  text : PyStr
deriving DecidableEq, Repr

/-- `cesar.timestamp_aligner.AlignedSegment`. -/
structure AlignedSegment where
  start : ℚ
  end_ : ℚ
  speaker : String
  text : PyStr
deriving DecidableEq, Repr

/-- `cesar.timestamp_aligner._calculate_intersection`. -/
def _calculate_intersection (seg_start seg_end spk_start spk_end : ℚ) : ℚ :=
  if max seg_start spk_start < min seg_end spk_end then
    min seg_end spk_end - max seg_start spk_start
  else 0

/-- `cesar.timestamp_aligner._find_speakers_in_range`: all `(speaker,
overlap_start, overlap_end)` triples of diarization turns intersecting the
range. -/
def _find_speakers_in_range (start end_ : ℚ) (diarization : DiarizationResult) :
    List (String × ℚ × ℚ) :=
  diarization.segments.filterMap fun seg =>
    if 0 < _calculate_intersection start end_ seg.start seg.end_ then
      some (seg.speaker, max start seg.start, min end_ seg.end_)
    else none

/-- Overlap between the in-segment active regions of two found turns. -/
def overlapPair (x y : String × ℚ × ℚ) : ℚ :=
  _calculate_intersection x.2.1 x.2.2 y.2.1 y.2.2

/-- The pairwise double loop of `_detect_overlapping_speech`. -/
def detectAux : List (String × ℚ × ℚ) → Bool
  | [] => false
  | x :: rest => rest.any (fun y => decide ((1:ℚ)/2 < overlapPair x y)) || detectAux rest

/-- `cesar.timestamp_aligner._detect_overlapping_speech`. -/
def _detect_overlapping_speech (speakers : List (String × ℚ × ℚ)) : Bool :=
  if speakers.length ≤ 1 then false else detectAux speakers

/-- The key order of `list.sort(key=lambda x: x[1])`: compare found turns by
overlap start. -/
def startLE (x y : String × ℚ × ℚ) : Prop := x.2.1 ≤ y.2.1

instance : DecidableRel startLE := fun x y => inferInstanceAs (Decidable (x.2.1 ≤ y.2.1))

instance : IsTotal (String × ℚ × ℚ) startLE := ⟨fun a b => le_total a.2.1 b.2.1⟩

instance : IsTrans (String × ℚ × ℚ) startLE := ⟨fun _ _ _ h h' => le_trans h h'⟩

/-- Python's stable `list.sort(key=lambda x: x[1])` on the found turns,
embedded as a stable sort (insertion sort); any two stable sorts under the
same key agree on every input. -/
def sortSpeakers (l : List (String × ℚ × ℚ)) : List (String × ℚ × ℚ) :=
  l.insertionSort startLE

/-- The sequential-speaker splitting loop of `align_timestamps`
(`timestamp_aligner.py` lines 186-210): walks the sorted turns carrying
`word_idx`; every turn but the last takes `max(1, int(len(words) *
proportion))` words, the last takes the rest; empty word lists are not
emitted. -/
def splitLoop (words : List PyStr) (total : ℚ) :
    List (String × ℚ × ℚ) → ℕ → List AlignedSegment
  | [], _ => []
  | [(spk, ostart, oend)], word_idx =>
    let speaker_words := words.drop word_idx
    if speaker_words = [] then []
    else [⟨ostart, oend, spk, pyJoin [' '] speaker_words⟩]
  | (spk, ostart, oend) :: rest, word_idx =>
    let proportion := if 0 < total then (oend - ostart) / total else 0
    let word_count := (max 1 (pyTrunc ((words.length : ℚ) * proportion))).toNat
    let speaker_words := (words.drop word_idx).take word_count
    (if speaker_words = [] then []
     else [⟨ostart, oend, spk, pyJoin [' '] speaker_words⟩]) ++
      splitLoop words total rest (word_idx + word_count)

/-- `speakers_in_range[0][0]`, reached only on a singleton list. -/
def headSpeaker : List (String × ℚ × ℚ) → String
  | [] => "UNKNOWN"
  | t :: _ => t.1

/-- Processing of one transcription segment in the multi-speaker branch of
`align_timestamps` (`timestamp_aligner.py` lines 133-210). -/
def alignOne (diarization : DiarizationResult) (seg : TranscriptionSegment) :
    List AlignedSegment :=
  let speakers_in_range := _find_speakers_in_range seg.start seg.end_ diarization
  if speakers_in_range.length = 0 then
    [⟨seg.start, seg.end_, "UNKNOWN", seg.text⟩]
  else if speakers_in_range.length = 1 then
    [⟨seg.start, seg.end_, headSpeaker speakers_in_range, seg.text⟩]
  else if _detect_overlapping_speech speakers_in_range then
    [⟨seg.start, seg.end_, "Multiple speakers", seg.text⟩]
  else
    splitLoop (pySplit seg.text) (seg.end_ - seg.start)
      (sortSpeakers speakers_in_range) 0

/-- `cesar.timestamp_aligner.align_timestamps`. -/
def align_timestamps (transcription_segments : List TranscriptionSegment)
    (diarization : DiarizationResult) : List AlignedSegment :=
  if diarization.speaker_count = 1 then
    let single_speaker :=
      match diarization.segments with
      | [] => "UNKNOWN"
      | s :: _ => s.speaker
    transcription_segments.map fun seg =>
      ⟨seg.start, seg.end_, single_speaker, seg.text⟩
  else
    transcription_segments.flatMap (alignOne diarization)

/-- `cesar.timestamp_aligner.should_include_speaker_labels`. -/
def should_include_speaker_labels (diarization : DiarizationResult) : Bool :=
  decide (1 < diarization.speaker_count)

/-- Word count the specification assigns to each turn of a split:
`max(1, wordCount × proportion)` with the turn's share of the segment
duration, truncated as the code does. -/
def claimCounts (n : ℕ) (total : ℚ) (turns : List (String × ℚ × ℚ)) : List ℕ :=
  turns.map fun t =>
    (max 1 (pyTrunc ((n : ℚ) * (if 0 < total then (t.2.2 - t.2.1) / total else 0)))).toNat

/-- Spec-side splitting procedure: slice the word list by the per-turn counts,
the last turn absorbing all remaining words. -/
def sliceByCounts : List ℕ → List PyStr → List (List PyStr)
  | [], _ => []
  | [_], ws => [ws]
  | c :: cs, ws => ws.take c :: sliceByCounts cs (ws.drop c)

/-! ## Orchestrator (`cesar/orchestrator.py`)

Wall-clock timings and logging are dropped; file writes and backend
invocations are recorded in an explicit event trace, and the backends'
behaviour on this one call is a parameter (`OrchSetup`). -/

/-- An output path: base name plus extension, enough to model
`Path.with_suffix`. -/
structure OPath where
  stem : String
  ext : String
deriving DecidableEq, Repr

/-- `pathlib.Path.with_suffix`. -/
def withSuffix (p : OPath) (s : String) : OPath := { p with ext := s }

/-- A segment as the orchestrator handles it (`WhisperXSegment` or a plain
`TranscriptionSegment`); only `text` is read when saving a plain
transcript. -/
structure OrchSegment where
  start : ℚ
  end_ : ℚ
  speaker : Option String
  text : PyStr
deriving DecidableEq, Repr

/-- Observable side effects of one `orchestrate` call. -/
inductive OEvent where
  | pipelineInvoked
  | fallbackInvoked
  | wroteIntermediate (path : OPath)
  | wrote (path : OPath) (content : PyStr)
deriving DecidableEq, Repr

/-- Behaviour of `pipeline.transcribe_and_diarize` on this call: a result
triple, or one of the exception kinds `orchestrate` distinguishes. -/
inductive PipelineOutcome where
  | success (segments : List OrchSegment) (speakers_detected : ℕ) (audio_duration : ℚ)
  | authError (msg : String)
  | diarizationError (msg : String)
  | otherError (msg : String)
deriving DecidableEq, Repr

/-- Behaviour of the fallback `AudioTranscriber` on this call
(`_transcribe_fallback`). -/
structure TranscriberRun where
  segments : List OrchSegment
  audio_duration : ℚ
deriving DecidableEq, Repr

/-- Behaviour of `formatter.format(segments)` on this call. -/
inductive FormatOutcome where
  | ok (text : PyStr)
  | raises (msg : String)
deriving DecidableEq, Repr

/-- The components a `TranscriptionOrchestrator` holds, with their behaviour
on this call. -/
structure OrchSetup where
  pipeline : Option PipelineOutcome
  transcriber : Option TranscriberRun
  formatter : FormatOutcome
deriving DecidableEq, Repr

/-- Exceptions escaping `orchestrate`. -/
inductive OrchError where
  | authError (msg : String)
  | diarizationError (msg : String)
  | valueError (msg : String)
deriving DecidableEq, Repr

/-- `cesar.orchestrator.OrchestrationResult` (timing fields dropped). -/
structure OrchestrationResult where
  output_path : OPath
  speakers_detected : ℕ
  audio_duration : ℚ
  diarization_succeeded : Bool
deriving DecidableEq, Repr

/-- File content written by
`TranscriptionOrchestrator._save_plain_transcript`. -/
def plainContent (segments : List OrchSegment) : PyStr :=
  "# Transcript\n\n(Speaker detection unavailable)\n\n".toList ++
    (segments.map (fun seg => seg.text ++ ['\n'])).flatten

/-- `TranscriptionOrchestrator.orchestrate`: the control flow of
`orchestrator.py` lines 141-252, returning the result or escaping error,
plus the trace of invocations and file writes (in program order, cut off at
the point an exception escapes). -/
def orchestrate (s : OrchSetup) (output_path : OPath)
    (enable_diarization keep_intermediate : Bool) :
    Except OrchError OrchestrationResult × List OEvent :=
  match enable_diarization, s.pipeline with
  | true, some po =>
    match po with
    | .success segments speakers_detected audio_duration =>
      let ev0 := [OEvent.pipelineInvoked] ++
        (if keep_intermediate
         then [OEvent.wroteIntermediate ⟨output_path.stem ++ "_diarization", ".json"⟩]
         else [])
      match s.formatter with
      | .ok formatted_text =>
        let final_output := withSuffix output_path ".md"
        (.ok ⟨final_output, speakers_detected, audio_duration, true⟩,
          ev0 ++ [OEvent.wrote final_output formatted_text])
      | .raises _ =>
        let final_output := withSuffix output_path ".txt"
        (.ok ⟨final_output, speakers_detected, audio_duration, false⟩,
          ev0 ++ [OEvent.wrote final_output (plainContent segments)])
    | .authError m => (.error (.authError m), [OEvent.pipelineInvoked])
    | .diarizationError m =>
      match s.transcriber with
      | some tr =>
        let final_output := withSuffix output_path ".txt"
        (.ok ⟨final_output, 0, tr.audio_duration, false⟩,
          [OEvent.pipelineInvoked, OEvent.fallbackInvoked,
            OEvent.wrote final_output (plainContent tr.segments)])
      | none =>
        (.error (.diarizationError
          ("Diarization failed and no fallback transcriber available: " ++ m)),
          [OEvent.pipelineInvoked])
    | .otherError m =>
      (.error (.diarizationError ("Pipeline failed: " ++ m)), [OEvent.pipelineInvoked])
  | _, _ =>
    match s.transcriber with
    | some tr =>
      let final_output := withSuffix output_path ".txt"
      (.ok ⟨final_output, 0, tr.audio_duration, false⟩,
        [OEvent.fallbackInvoked, OEvent.wrote final_output (plainContent tr.segments)])
    | none =>
      (.error (.valueError
        "Transcription requires either pipeline (for diarization) or transcriber (for plain transcription)"),
        [])

/-! ## Background worker (`cesar/api/worker.py`)

Only the job fields the processing step reads or writes are carried;
identity, paths and timestamps are orthogonal to the claims and omitted. -/

/-- `cesar.api.models.JobStatus`. -/
inductive JobStatus where
  | QUEUED
  | DOWNLOADING
  | PROCESSING
  | COMPLETED
  | ERROR
  | PARTIAL
deriving DecidableEq, Repr

/-- The result-bearing fields of `cesar.api.models.Job`. -/
structure Job where
  result_text : Option PyStr
  detected_language : Option String
  diarization_error : Option String
  diarization_error_code : Option String
  diarize : Bool
  status : JobStatus
  diarized : Option Bool
  speaker_count : Option ℕ
deriving DecidableEq, Repr

/-- `worker.py` lines 189-193: the retry check (`is not None` on both
fields). -/
def is_retry (job : Job) : Bool :=
  job.result_text.isSome && job.diarization_error.isSome

/-- Python falsiness of an optional string (`if not hf_token`). -/
def tokenFalsy : Option String → Bool
  | none => true
  | some s => s.isEmpty

/-- Truthiness of `result.get("diarization_error_code")`. -/
def codeTruthy : Option String → Bool
  | none => false
  | some s => !s.isEmpty

/-- The dictionary `_run_transcription_with_orchestrator` returns. -/
structure WorkerRunResult where
  text : PyStr
  language : String
  diarization_succeeded : Bool
  speaker_count : Option ℕ
  diarization_error_code : Option String
  diarization_error : Option String
deriving DecidableEq, Repr

/-- Outcome of the inner `orchestrator.orchestrate` call as the worker
observes it (success data or the exception kind it catches). -/
inductive WorkerOrchOutcome where
  | ok (text : PyStr) (diarization_succeeded : Bool) (speakers_detected : ℕ)
  | authError (msg : String)
  | diarizationError (msg : String)
deriving DecidableEq, Repr

/-- `BackgroundWorker._run_transcription_with_orchestrator` (`worker.py`
lines 327-460): the returned dictionary, paired with whether the diarization
pipeline was attempted (diarizer construction and orchestration).
`plain_text`/`language` are what plain `transcribe_file` produces on this
audio. -/
def run_transcription_with_orchestrator (diarize : Bool) (hf_token : Option String)
    (plain_text : PyStr) (language : String) (orch : WorkerOrchOutcome) :
    WorkerRunResult × Bool :=
  if !diarize then
    (⟨plain_text, language, false, none, none, none⟩, false)
  else if tokenFalsy hf_token then
    (⟨plain_text, language, false, none, some "hf_token_required",
      some ("HuggingFace token required for speaker diarization. " ++
        "Set hf_token in config or HF_TOKEN environment variable.")⟩,
      false)
  else
    match orch with
    | .ok text ds spk =>
      (⟨text, "unknown", ds, if ds then some spk else none, none, none⟩, true)
    | .authError m =>
      (⟨plain_text, language, false, none, some "hf_token_invalid", some m⟩, true)
    | .diarizationError m =>
      (⟨plain_text, language, false, none, some "diarization_failed", some m⟩, true)

/-- `BackgroundWorker._process_job` lines 239-268: fold the run result into
the job's terminal fields. -/
def updateJobWithResult (job : Job) (r : WorkerRunResult) : Job :=
  let j1 := { job with
    result_text := some r.text
    detected_language := some r.language }
  if codeTruthy r.diarization_error_code then
    { j1 with
      status := JobStatus.PARTIAL
      diarization_error_code := r.diarization_error_code
      diarization_error := some (r.diarization_error.getD "Diarization failed")
      diarized := some false
      speaker_count := none }
  else if r.diarization_succeeded = false ∧ job.diarize then
    { j1 with
      status := JobStatus.PARTIAL
      diarization_error := some "Diarization failed during processing"
      diarization_error_code := some "diarization_failed"
      diarized := some false
      speaker_count := none }
  else if r.diarization_succeeded then
    { j1 with
      status := JobStatus.COMPLETED
      diarized := some true
      speaker_count := some (r.speaker_count.getD 0) }
  else
    { j1 with
      status := JobStatus.COMPLETED
      diarized := some false
      speaker_count := none }

/-- A word, as produced by `pySplit`: non-empty and free of whitespace. -/
def IsWord (w : PyStr) : Prop := w ≠ [] ∧ ∀ c ∈ w, c.isWhitespace = false

lemma pySplitAux_words : ∀ (s acc : List Char),
    (∀ c ∈ acc, c.isWhitespace = false) → ∀ w ∈ pySplitAux s acc, IsWord w := by
  intro s
  induction s with
  | nil =>
    intro acc hacc w hw
    by_cases h : acc = [] <;> simp [pySplitAux, h] at hw
    subst hw
    refine ⟨by simpa using h, ?_⟩
    intro c hc
    exact hacc c (List.mem_reverse.mp hc)
  | cons c s ih =>
    intro acc hacc w hw
    by_cases hc : c.isWhitespace
    · simp [pySplitAux, hc] at hw
      by_cases h : acc = []
      · simp [h] at hw
        exact ih [] (by simp) w hw
      · simp [h] at hw
        rcases hw with hw | hw
        · subst hw
          refine ⟨by simpa using h, ?_⟩
          intro x hx
          exact hacc x (List.mem_reverse.mp hx)
        · exact ih [] (by simp) w hw
    · simp [pySplitAux, hc] at hw
      refine ih (c :: acc) ?_ w hw
      intro x hx
      rcases List.mem_cons.mp hx with hx | hx
      · subst hx; simpa using hc
      · exact hacc x hx

lemma pySplit_words (s : PyStr) : ∀ w ∈ pySplit s, IsWord w :=
  pySplitAux_words s [] (by simp)

lemma pySplitAux_word_append (w : PyStr) (hw : ∀ c ∈ w, c.isWhitespace = false) :
    ∀ (s acc : List Char), pySplitAux (w ++ s) acc = pySplitAux s (w.reverse ++ acc) := by
  induction w with
  | nil => simp
  | cons c w ih =>
    intro s acc
    have hc : c.isWhitespace = false := hw c (List.mem_cons_self c w)
    have hrest : ∀ x ∈ w, x.isWhitespace = false := fun x hx => hw x (List.mem_cons_of_mem c hx)
    calc pySplitAux ((c :: w) ++ s) acc
        = pySplitAux (w ++ s) (c :: acc) := by simp [pySplitAux, hc]
      _ = pySplitAux s (w.reverse ++ (c :: acc)) := ih hrest s (c :: acc)
      _ = pySplitAux s ((c :: w).reverse ++ acc) := by simp

/-- Joining words with a single space and splitting again recovers the words:
the round trip behind every emitted split piece's text. -/
lemma pySplit_pyJoin : ∀ (ws : List PyStr), (∀ w ∈ ws, IsWord w) →
    pySplit (pyJoin [' '] ws) = ws := by
  intro ws
  induction ws with
  | nil => intro; simp [pyJoin, pySplit, pySplitAux]
  | cons w ws ih =>
    intro h
    obtain ⟨hw, hwchars⟩ := h w (List.mem_cons_self w ws)
    cases ws with
    | nil =>
      show pySplit (pyJoin [' '] [w]) = [w]
      have : pySplit w = pySplit (w ++ []) := by simp
      simp only [pyJoin]
      rw [show (w : PyStr) = w ++ ([] : List Char) by simp,
        pySplit, pySplitAux_word_append w hwchars]
      simp [pySplitAux, hw]
    | cons w2 ws2 =>
      have hrest : ∀ x ∈ w2 :: ws2, IsWord x := fun x hx =>
        h x (List.mem_cons_of_mem w hx)
      have hjoin : pyJoin [' '] (w :: w2 :: ws2) = w ++ (' ' :: pyJoin [' '] (w2 :: ws2)) := by
        simp [pyJoin]
      rw [hjoin, pySplit, pySplitAux_word_append w hwchars]
      have hsp : (' ').isWhitespace = true := by decide
      simp only [pySplitAux, hsp, if_true, List.append_nil]
      simp only [hw, List.reverse_eq_nil_iff, if_false, List.reverse_reverse]
      simp [hw]
      exact ih hrest

lemma sliceByCounts_length : ∀ (cs : List ℕ) (ws : List PyStr),
    (sliceByCounts cs ws).length = cs.length := by
  intro cs
  induction cs with
  | nil => intro ws; simp [sliceByCounts]
  | cons c cs ih =>
    intro ws
    cases cs with
    | nil => simp [sliceByCounts]
    | cons c2 cs2 => simp [sliceByCounts, ih]

lemma sliceByCounts_flatten : ∀ (cs : List ℕ) (ws : List PyStr), cs ≠ [] →
    (sliceByCounts cs ws).flatten = ws := by
  intro cs
  induction cs with
  | nil => intro ws h; exact absurd rfl h
  | cons c cs ih =>
    intro ws _
    cases cs with
    | nil => simp [sliceByCounts]
    | cons c2 cs2 =>
      simp only [sliceByCounts, List.flatten_cons]
      rw [ih (ws.drop c) (by simp)]
      exact List.take_append_drop c ws

lemma sliceByCounts_mem_mem : ∀ (cs : List ℕ) (ws : List PyStr) (piece : List PyStr),
    piece ∈ sliceByCounts cs ws → ∀ w ∈ piece, w ∈ ws := by
  intro cs
  induction cs with
  | nil => intro ws piece h; simp [sliceByCounts] at h
  | cons c cs ih =>
    intro ws piece h w hw
    cases cs with
    | nil =>
      simp [sliceByCounts] at h
      subst h; exact hw
    | cons c2 cs2 =>
      simp only [sliceByCounts, List.mem_cons] at h
      rcases h with h | h
      · subst h; exact List.mem_of_mem_take hw
      · exact List.mem_of_mem_drop (ih (ws.drop c) piece h w hw)

/-- The pairwise loop detects overlap iff some ordered pair of found turns has
in-segment regions overlapping by more than half a second. -/
lemma detectAux_eq_false_iff : ∀ (l : List (String × ℚ × ℚ)),
    detectAux l = false ↔ List.Pairwise (fun x y => overlapPair x y ≤ 1/2) l := by
  intro l
  induction l with
  | nil => simp [detectAux]
  | cons x rest ih =>
    simp only [detectAux, Bool.or_eq_false_iff, List.pairwise_cons, ih,
      List.any_eq_false, decide_eq_true_eq, not_lt]

/-- The sequential splitting loop of the code computes exactly the spec-side
procedure: slice the word list by the per-turn counts (last turn absorbing the
rest) and emit one labeled segment per non-empty slice, in sorted turn
order. -/
lemma splitLoop_eq_slices (words : List PyStr) (total : ℚ) :
    ∀ (turns : List (String × ℚ × ℚ)), turns ≠ [] → ∀ (idx : ℕ),
    splitLoop words total turns idx =
      (turns.zip (sliceByCounts (claimCounts words.length total turns)
          (words.drop idx))).filterMap
        (fun p => if p.2 = [] then none
          else some ⟨p.1.2.1, p.1.2.2, p.1.1, pyJoin [' '] p.2⟩) := by
  intro turns
  induction turns with
  | nil => intro h; exact absurd rfl h
  | cons t rest ih =>
    intro _ idx
    obtain ⟨spk, ostart, oend⟩ := t
    cases rest with
    | nil =>
      by_cases h : words.drop idx = [] <;>
        simp [splitLoop, claimCounts, sliceByCounts, h, List.filterMap_cons]
    | cons t2 rest2 =>
      have hdrop : (words.drop idx).drop
          ((max 1 (pyTrunc ((words.length : ℚ) *
            (if 0 < total then (oend - ostart) / total else 0)))).toNat) =
          words.drop (idx + (max 1 (pyTrunc ((words.length : ℚ) *
            (if 0 < total then (oend - ostart) / total else 0)))).toNat) := by
        rw [List.drop_drop, Nat.add_comm]
      have hrec := ih (by simp) (idx + (max 1 (pyTrunc ((words.length : ℚ) *
        (if 0 < total then (oend - ostart) / total else 0)))).toNat)
      by_cases h : (words.drop idx).take
          ((max 1 (pyTrunc ((words.length : ℚ) *
            (if 0 < total then (oend - ostart) / total else 0)))).toNat) = [] <;>
        simp only [splitLoop, claimCounts, List.map_cons, sliceByCounts,
          List.zip_cons_cons, List.filterMap_cons, h, if_true, if_false,
          List.nil_append, List.singleton_append, hrec, hdrop]

/-- Every found turn's in-segment region sits inside the segment's range and
is non-degenerate. -/
lemma find_speakers_bounds (start end_ : ℚ) (d : DiarizationResult) :
    ∀ t ∈ _find_speakers_in_range start end_ d,
      start ≤ t.2.1 ∧ t.2.2 ≤ end_ ∧ t.2.1 < t.2.2 := by
  intro t ht
  simp only [_find_speakers_in_range, List.mem_filterMap] at ht
  obtain ⟨seg, _, hseg⟩ := ht
  by_cases h : 0 < _calculate_intersection start end_ seg.start seg.end_
  · simp only [h, if_true] at hseg
    have hlt : max start seg.start < min end_ seg.end_ := by
      by_contra hcon
      simp [_calculate_intersection, hcon] at h
    have heq := Option.some_inj.mp hseg
    subst heq
    exact ⟨le_max_left _ _, min_le_left _ _, hlt⟩
  · simp [h] at hseg

lemma sortSpeakers_perm (l : List (String × ℚ × ℚ)) : (sortSpeakers l).Perm l :=
  List.perm_insertionSort startLE l

lemma sortSpeakers_sorted (l : List (String × ℚ × ℚ)) :
    List.Pairwise startLE (sortSpeakers l) :=
  List.sorted_insertionSort startLE l

lemma align_timestamps_append (ts₁ ts₂ : List TranscriptionSegment)
    (d : DiarizationResult) :
    align_timestamps (ts₁ ++ ts₂) d = align_timestamps ts₁ d ++ align_timestamps ts₂ d := by
  by_cases h : d.speaker_count = 1 <;> simp [align_timestamps, h]

lemma align_timestamps_singleton (seg : TranscriptionSegment) (d : DiarizationResult)
    (h : d.speaker_count ≠ 1) :
    align_timestamps [seg] d = alignOne d seg := by
  simp [align_timestamps, h]

/-- Every segment emitted by the splitting loop carries the boundaries and
speaker of one of the turns, and its text joins a non-empty batch of the
remaining words. -/
lemma splitLoop_out (words : List PyStr) (total : ℚ)
    (turns : List (String × ℚ × ℚ)) (idx : ℕ) (out : AlignedSegment)
    (h : out ∈ splitLoop words total turns idx) :
    ∃ t ∈ turns, out.start = t.2.1 ∧ out.end_ = t.2.2 ∧ out.speaker = t.1 ∧
      ∃ piece, piece ≠ [] ∧ (∀ w ∈ piece, w ∈ words.drop idx) ∧
        out.text = pyJoin [' '] piece := by
  cases turns with
  | nil => simp [splitLoop] at h
  | cons t rest =>
    rw [splitLoop_eq_slices words total (t :: rest) (by simp) idx] at h
    simp only [List.mem_filterMap] at h
    obtain ⟨p, hp, hfp⟩ := h
    obtain ⟨tp, piece⟩ := p
    by_cases hnil : piece = []
    · simp [hnil] at hfp
    · simp only [hnil, if_false] at hfp
      obtain ⟨h1, h2⟩ := List.of_mem_zip hp
      have heq := Option.some_inj.mp hfp
      subst heq
      exact ⟨tp, h1, rfl, rfl, rfl, piece, hnil,
        sliceByCounts_mem_mem _ _ piece h2, rfl⟩

/-- Splitting emits segments ordered by their start times whenever the turn
list is sorted by overlap start. -/
lemma splitLoop_pairwise (words : List PyStr) (total : ℚ)
    (turns : List (String × ℚ × ℚ)) (idx : ℕ)
    (h : List.Pairwise startLE turns) :
    List.Pairwise (fun a b => a.start ≤ b.start) (splitLoop words total turns idx) := by
  cases turns with
  | nil => simp [splitLoop]
  | cons t rest =>
    rw [splitLoop_eq_slices words total (t :: rest) (by simp) idx,
      List.pairwise_filterMap]
    have hlen : (t :: rest).length ≤
        (sliceByCounts (claimCounts words.length total (t :: rest))
          (words.drop idx)).length := by
      rw [sliceByCounts_length]
      simp [claimCounts]
    have hfst := List.map_fst_zip (t :: rest)
      (sliceByCounts (claimCounts words.length total (t :: rest)) (words.drop idx)) hlen
    have hzip : List.Pairwise (fun p q : (String × ℚ × ℚ) × List PyStr =>
        startLE p.1 q.1) ((t :: rest).zip
          (sliceByCounts (claimCounts words.length total (t :: rest)) (words.drop idx))) := by
      have h' := h
      rw [← hfst] at h'
      exact List.pairwise_map.mp h'
    refine hzip.imp ?_
    intro p q hpq b hb b' hb'
    by_cases hp : p.2 = []
    · simp [hp] at hb
    · by_cases hq : q.2 = []
      · simp [hq] at hb'
      · simp only [hp, hq, if_false, Option.mem_def, Option.some_inj] at hb hb'
        rw [← hb, ← hb']
        exact hpq

lemma alignOne_bounds (d : DiarizationResult) (seg : TranscriptionSegment) :
    ∀ out ∈ alignOne d seg, seg.start ≤ out.start ∧ out.end_ ≤ seg.end_ := by
  intro out hout
  by_cases h0 : (_find_speakers_in_range seg.start seg.end_ d).length = 0
  · simp [alignOne, h0] at hout
    simp [hout]
  · by_cases h1 : (_find_speakers_in_range seg.start seg.end_ d).length = 1
    · simp [alignOne, h0, h1] at hout
      simp [hout]
    · by_cases hdet : _detect_overlapping_speech
          (_find_speakers_in_range seg.start seg.end_ d) = true
      · simp [alignOne, h0, h1, hdet] at hout
        simp [hout]
      · simp [alignOne, h0, h1, hdet] at hout
        obtain ⟨t, ht, hs, he, _⟩ := splitLoop_out _ _ _ _ _ hout
        have ht' : t ∈ _find_speakers_in_range seg.start seg.end_ d :=
          (sortSpeakers_perm _).subset ht
        have hb := find_speakers_bounds _ _ d t ht'
        rw [hs, he]
        exact ⟨hb.1, hb.2.1⟩

lemma alignOne_pairwise (d : DiarizationResult) (seg : TranscriptionSegment) :
    List.Pairwise (fun a b => a.start ≤ b.start) (alignOne d seg) := by
  by_cases h0 : (_find_speakers_in_range seg.start seg.end_ d).length = 0
  · simp [alignOne, h0]
  · by_cases h1 : (_find_speakers_in_range seg.start seg.end_ d).length = 1
    · simp [alignOne, h0, h1]
    · by_cases hdet : _detect_overlapping_speech
          (_find_speakers_in_range seg.start seg.end_ d) = true
      · simp [alignOne, h0, h1, hdet]
      · simp only [alignOne, h0, h1, hdet, if_false]
        exact splitLoop_pairwise _ _ _ _ (sortSpeakers_sorted _)

/-- When a transcript segment meets at least two turns with no pair of
in-segment regions overlapping by more than half a second, `align_timestamps`
takes the sequential-splitting path. -/
lemma align_split_form (d : DiarizationResult) (seg : TranscriptionSegment)
    (hcount : d.speaker_count ≠ 1)
    (hk : 2 ≤ (_find_speakers_in_range seg.start seg.end_ d).length)
    (hno : List.Pairwise (fun x y => overlapPair x y ≤ 1/2)
      (_find_speakers_in_range seg.start seg.end_ d)) :
    align_timestamps [seg] d =
      splitLoop (pySplit seg.text) (seg.end_ - seg.start)
        (sortSpeakers (_find_speakers_in_range seg.start seg.end_ d)) 0 := by
  rw [align_timestamps_singleton seg d hcount]
  have h0 : ¬ (_find_speakers_in_range seg.start seg.end_ d).length = 0 := by omega
  have h1 : ¬ (_find_speakers_in_range seg.start seg.end_ d).length = 1 := by omega
  have hdet : _detect_overlapping_speech
      (_find_speakers_in_range seg.start seg.end_ d) = false := by
    unfold _detect_overlapping_speech
    rw [if_neg (by omega)]
    exact (detectAux_eq_false_iff _).mpr hno
  simp [alignOne, h0, h1, hdet]

lemma sortSpeakers_ne_nil (l : List (String × ℚ × ℚ)) (h : 2 ≤ l.length) :
    sortSpeakers l ≠ [] := by
  intro hnil
  have := (sortSpeakers_perm l).length_eq
  rw [hnil] at this
  simp at this
  omega

/-- Splicing out the non-empty slices and re-splitting their joined texts
recovers exactly the concatenation of all slices. -/
lemma filterMap_join_texts : ∀ (ps : List ((String × ℚ × ℚ) × List PyStr)),
    (∀ p ∈ ps, ∀ w ∈ p.2, IsWord w) →
    ((ps.filterMap (fun p => if p.2 = [] then none
        else some (⟨p.1.2.1, p.1.2.2, p.1.1, pyJoin [' '] p.2⟩ : AlignedSegment))).map
      (fun out => pySplit out.text)).flatten = (ps.map (fun p => p.2)).flatten := by
  intro ps
  induction ps with
  | nil => intro; simp
  | cons p ps ih =>
    intro h
    have hp := h p (List.mem_cons_self p ps)
    have hps : ∀ q ∈ ps, ∀ w ∈ q.2, IsWord w := fun q hq =>
      h q (List.mem_cons_of_mem p hq)
    by_cases hnil : p.2 = []
    · simp [List.filterMap_cons, hnil, ih hps]
    · simp only [List.filterMap_cons, hnil, if_false, List.map_cons, List.flatten_cons]
      rw [pySplit_pyJoin p.2 hp, ih hps]

lemma flatten_texts_contains : ∀ (segs : List OrchSegment) (s : OrchSegment),
    s ∈ segs → ∃ a b, (segs.map (fun seg => seg.text ++ ['\n'])).flatten =
      a ++ (s.text ++ b) := by
  intro segs
  induction segs with
  | nil => intro s h; simp at h
  | cons t rest ih =>
    intro s hs
    rcases List.mem_cons.mp hs with h | h
    · subst h
      exact ⟨[], '\n' :: (rest.map (fun seg => seg.text ++ ['\n'])).flatten, by simp⟩
    · obtain ⟨a, b, hab⟩ := ih s h
      exact ⟨t.text ++ ['\n'] ++ a, b, by simp [hab]⟩

/-- Every segment's text appears inside the saved plain transcript. -/
lemma plainContent_contains (segs : List OrchSegment) :
    ∀ s ∈ segs, ∃ a b, plainContent segs = a ++ (s.text ++ b) := by
  intro s hs
  obtain ⟨a, b, hab⟩ := flatten_texts_contains segs s hs
  exact ⟨"# Transcript\n\n(Speaker detection unavailable)\n\n".toList ++ a, b,
    by simp [plainContent, hab]⟩

/-- C3: for every transcript segment that intersects two or more speaker
turns (diarization in multi-speaker mode), if some pair of those turns'
overlap regions within the segment overlap each other by more than 0.5
seconds, `align_timestamps` emits exactly one output segment for it, carrying
the segment's original start, end and text, labeled with the sentinel
`"Multiple speakers"`; the segment is not split. -/
theorem C3_overlap_sentinel (d : DiarizationResult) (seg : TranscriptionSegment)
    (hcount : d.speaker_count ≠ 1)
    (hk : 2 ≤ (_find_speakers_in_range seg.start seg.end_ d).length)
    (hover : ¬ List.Pairwise (fun x y => overlapPair x y ≤ 1/2)
      (_find_speakers_in_range seg.start seg.end_ d)) :
    align_timestamps [seg] d =
      [⟨seg.start, seg.end_, "Multiple speakers", seg.text⟩] := by
  rw [align_timestamps_singleton seg d hcount]
  have h0 : ¬ (_find_speakers_in_range seg.start seg.end_ d).length = 0 := by omega
  have h1 : ¬ (_find_speakers_in_range seg.start seg.end_ d).length = 1 := by omega
  have hdet : _detect_overlapping_speech
      (_find_speakers_in_range seg.start seg.end_ d) = true := by
    unfold _detect_overlapping_speech
    rw [if_neg (by omega)]
    cases hb : detectAux (_find_speakers_in_range seg.start seg.end_ d) with
    | false => exact absurd ((detectAux_eq_false_iff _).mp hb) hover
    | true => rfl
  simp [alignOne, h0, h1, hdet]

/-- Witness for C3: two turns overlapping by 2 s inside one segment. -/
theorem C3_overlap_sentinel_witness :
    align_timestamps [⟨0, 10, "hi there".toList⟩]
      ⟨[⟨0, 6, "SPEAKER_00"⟩, ⟨4, 10, "SPEAKER_01"⟩], 2, 10⟩ =
      [⟨0, 10, "Multiple speakers", "hi there".toList⟩] :=
  C3_overlap_sentinel ⟨[⟨0, 6, "SPEAKER_00"⟩, ⟨4, 10, "SPEAKER_01"⟩], 2, 10⟩
    ⟨0, 10, "hi there".toList⟩ (by decide) (by decide) (by decide)

/-- C4: for every diarization result with exactly one distinct speaker across
all turns (and its `speaker_count` field recording that count, as the
constructor guarantees), `align_timestamps` returns one output per input
segment with identical start, end and text, labeled with the sole speaker; no
splitting occurs. -/
theorem C4_single_speaker_verbatim (ts : List TranscriptionSegment)
    (d : DiarizationResult)
    (hwf : d.speaker_count = (d.segments.map (fun s => s.speaker)).dedup.length)
    (h1 : (d.segments.map (fun s => s.speaker)).dedup.length = 1) :
    ∃ spk, (∀ s ∈ d.segments, s.speaker = spk) ∧
      align_timestamps ts d =
        ts.map (fun seg => ⟨seg.start, seg.end_, spk, seg.text⟩) := by
  have hc : d.speaker_count = 1 := hwf.trans h1
  obtain ⟨a, ha⟩ := List.length_eq_one.mp h1
  have hall : ∀ s ∈ d.segments, s.speaker = a := by
    intro s hs
    have hmem : s.speaker ∈ (d.segments.map (fun s => s.speaker)).dedup :=
      List.mem_dedup.mpr (List.mem_map_of_mem _ hs)
    rw [ha] at hmem
    simpa using hmem
  refine ⟨a, hall, ?_⟩
  cases hseg : d.segments with
  | nil =>
    exfalso
    rw [hseg] at h1
    simp at h1
  | cons s rest =>
    have hs : s.speaker = a := hall s (by rw [hseg]; exact List.mem_cons_self _ _)
    simp [align_timestamps, hc, hseg, hs]

/-- Witness for C4: one speaker over two turns, two transcript segments. -/
theorem C4_single_speaker_verbatim_witness :
    ∃ spk, (∀ s ∈ ([⟨0, 4, "SPEAKER_00"⟩, ⟨5, 9, "SPEAKER_00"⟩] :
        List SpeakerSegment), s.speaker = spk) ∧
      align_timestamps [⟨0, 3, "a".toList⟩, ⟨3, 8, "b c".toList⟩]
          ⟨[⟨0, 4, "SPEAKER_00"⟩, ⟨5, 9, "SPEAKER_00"⟩], 1, 9⟩ =
        ([⟨0, 3, "a".toList⟩, ⟨3, 8, "b c".toList⟩] :
            List TranscriptionSegment).map
          (fun seg => ⟨seg.start, seg.end_, spk, seg.text⟩) :=
  C4_single_speaker_verbatim [⟨0, 3, "a".toList⟩, ⟨3, 8, "b c".toList⟩]
    ⟨[⟨0, 4, "SPEAKER_00"⟩, ⟨5, 9, "SPEAKER_00"⟩], 1, 9⟩ (by decide) (by decide)

/-- C10: each emitted segment's `[start, end]` range is contained in the
range of the transcript segment it derives from; outputs appear in source
segment order (the output of a list is the concatenation of the per-segment
outputs), and the pieces of one segment are ordered by start time. -/
theorem C10_containment_and_order (d : DiarizationResult)
    (pre post : List TranscriptionSegment) (seg : TranscriptionSegment) :
    align_timestamps (pre ++ seg :: post) d =
      align_timestamps pre d ++ align_timestamps [seg] d ++ align_timestamps post d
    ∧ (∀ out ∈ align_timestamps [seg] d, seg.start ≤ out.start ∧ out.end_ ≤ seg.end_)
    ∧ List.Pairwise (fun a b => a.start ≤ b.start) (align_timestamps [seg] d) := by
  refine ⟨?_, ?_, ?_⟩
  · rw [show pre ++ seg :: post = pre ++ [seg] ++ post by simp,
      align_timestamps_append, align_timestamps_append]
  · by_cases hc : d.speaker_count = 1
    · intro out hout
      simp [align_timestamps, hc] at hout
      simp [hout]
    · rw [align_timestamps_singleton seg d hc]
      exact alignOne_bounds d seg
  · by_cases hc : d.speaker_count = 1
    · simp [align_timestamps, hc]
    · rw [align_timestamps_singleton seg d hc]
      exact alignOne_pairwise d seg

/-- Counterexample to C1 as stated: segment `[0,10] "a b c"` with sequential
turns `[0,5]` and `[5,10]`.  The first (non-last) piece receives 1 word,
while `max(1, round(wordCount × proportion)) = max(1, round(3 × 5/10)) = 2`:
the code truncates (`int`) instead of rounding. -/
theorem C1_counterexample :
    (_find_speakers_in_range 0 10
        ⟨[⟨0, 5, "SPEAKER_00"⟩, ⟨5, 10, "SPEAKER_01"⟩], 2, 10⟩).length = 2
    ∧ List.Pairwise (fun x y => overlapPair x y ≤ 1/2)
        (_find_speakers_in_range 0 10
          ⟨[⟨0, 5, "SPEAKER_00"⟩, ⟨5, 10, "SPEAKER_01"⟩], 2, 10⟩)
    ∧ pySplit ("a b c".toList) ≠ []
    ∧ align_timestamps [⟨0, 10, "a b c".toList⟩]
        ⟨[⟨0, 5, "SPEAKER_00"⟩, ⟨5, 10, "SPEAKER_01"⟩], 2, 10⟩ =
      [⟨0, 5, "SPEAKER_00", "a".toList⟩, ⟨5, 10, "SPEAKER_01", "b c".toList⟩]
    ∧ (pySplit "a".toList).length = 1
    ∧ (max 1 (pyRound ((3 : ℚ) * ((5 : ℚ) / 10)))).toNat = 2 := by
  exact ⟨by decide, by decide, by decide, by decide, by decide, by decide⟩

/-- C1 (amended): with `⌊·⌋` (truncation) in place of rounding, and pieces
clipped to the words still available: in the sequential-split case the
emitted segments are exactly, in sorted turn order, one segment per
*non-empty* slice of the word list, where each non-last turn's slice takes
the next `max(1, int(wordCount × proportion))` available words and the last
turn's slice absorbs the remainder; every emitted piece is non-empty. -/
theorem C1_amended_split_counts (d : DiarizationResult) (seg : TranscriptionSegment)
    (hcount : d.speaker_count ≠ 1)
    (hk : 2 ≤ (_find_speakers_in_range seg.start seg.end_ d).length)
    (hno : List.Pairwise (fun x y => overlapPair x y ≤ 1/2)
      (_find_speakers_in_range seg.start seg.end_ d))
    (_hw : pySplit seg.text ≠ []) :
    align_timestamps [seg] d =
      ((sortSpeakers (_find_speakers_in_range seg.start seg.end_ d)).zip
        (sliceByCounts
          (claimCounts (pySplit seg.text).length (seg.end_ - seg.start)
            (sortSpeakers (_find_speakers_in_range seg.start seg.end_ d)))
          (pySplit seg.text))).filterMap
        (fun p => if p.2 = [] then none
          else some ⟨p.1.2.1, p.1.2.2, p.1.1, pyJoin [' '] p.2⟩)
    ∧ ∀ out ∈ align_timestamps [seg] d, pySplit out.text ≠ [] := by
  have halign := align_split_form d seg hcount hk hno
  have hne := sortSpeakers_ne_nil _ hk
  constructor
  · rw [halign, splitLoop_eq_slices _ _ _ hne 0, List.drop_zero]
  · intro out hout
    rw [halign] at hout
    obtain ⟨t, _, _, _, _, piece, hnonempty, hmem, htext⟩ :=
      splitLoop_out _ _ _ _ _ hout
    have hwords : ∀ w ∈ piece, IsWord w := by
      intro w hw'
      have hmw := hmem w hw'
      rw [List.drop_zero] at hmw
      exact pySplit_words seg.text w hmw
    rw [htext, pySplit_pyJoin piece hwords]
    exact hnonempty

/-- Witness for the amended C1 at the specification's own worked example. -/
theorem C1_amended_split_counts_witness :
    align_timestamps [⟨3, 7, "Hello world how are you".toList⟩]
        ⟨[⟨0, 5, "SPEAKER_00"⟩, ⟨5, 10, "SPEAKER_01"⟩], 2, 10⟩ =
      ((sortSpeakers (_find_speakers_in_range 3 7
          ⟨[⟨0, 5, "SPEAKER_00"⟩, ⟨5, 10, "SPEAKER_01"⟩], 2, 10⟩)).zip
        (sliceByCounts
          (claimCounts (pySplit ("Hello world how are you".toList)).length ((7 : ℚ) - 3)
            (sortSpeakers (_find_speakers_in_range 3 7
              ⟨[⟨0, 5, "SPEAKER_00"⟩, ⟨5, 10, "SPEAKER_01"⟩], 2, 10⟩)))
          (pySplit ("Hello world how are you".toList)))).filterMap
        (fun p => if p.2 = [] then none
          else some ⟨p.1.2.1, p.1.2.2, p.1.1, pyJoin [' '] p.2⟩) :=
  (C1_amended_split_counts ⟨[⟨0, 5, "SPEAKER_00"⟩, ⟨5, 10, "SPEAKER_01"⟩], 2, 10⟩
    ⟨3, 7, "Hello world how are you".toList⟩
    (by decide) (by decide) (by decide) (by decide)).1

/-- Counterexample to C2 as stated: a one-word segment `[0,10] "hello"` met
by turns `[0,10]` and `[9.8,10]` (their in-segment regions overlap by only
0.2 s) produces a single output segment, not at least two: the first turn
takes the only word and the empty last piece is dropped. -/
theorem C2_counterexample :
    (_find_speakers_in_range 0 10
        ⟨[⟨0, 10, "SPEAKER_00"⟩, ⟨(49 : ℚ)/5, 10, "SPEAKER_01"⟩], 2, 10⟩).length = 2
    ∧ List.Pairwise (fun x y => overlapPair x y ≤ 1/2)
        (_find_speakers_in_range 0 10
          ⟨[⟨0, 10, "SPEAKER_00"⟩, ⟨(49 : ℚ)/5, 10, "SPEAKER_01"⟩], 2, 10⟩)
    ∧ (align_timestamps [⟨0, 10, "hello".toList⟩]
        ⟨[⟨0, 10, "SPEAKER_00"⟩, ⟨(49 : ℚ)/5, 10, "SPEAKER_01"⟩], 2, 10⟩).length = 1 := by
  exact ⟨by decide, by decide, by decide⟩

/-- C2 (amended): in the sequential-split case the concatenation of the
emitted segments' word sequences equals the original segment's word sequence,
in order, with no word duplicated or dropped; and at least one segment is
emitted provided the original segment has at least one word (at least two is
not guaranteed: a turn may absorb all the words). -/
theorem C2_amended_word_preservation (d : DiarizationResult)
    (seg : TranscriptionSegment)
    (hcount : d.speaker_count ≠ 1)
    (hk : 2 ≤ (_find_speakers_in_range seg.start seg.end_ d).length)
    (hno : List.Pairwise (fun x y => overlapPair x y ≤ 1/2)
      (_find_speakers_in_range seg.start seg.end_ d)) :
    ((align_timestamps [seg] d).map (fun out => pySplit out.text)).flatten =
      pySplit seg.text
    ∧ (pySplit seg.text ≠ [] → align_timestamps [seg] d ≠ []) := by
  have halign := align_split_form d seg hcount hk hno
  have hne := sortSpeakers_ne_nil _ hk
  have hcs : claimCounts (pySplit seg.text).length (seg.end_ - seg.start)
      (sortSpeakers (_find_speakers_in_range seg.start seg.end_ d)) ≠ [] := by
    simp only [claimCounts, ne_eq, List.map_eq_nil_iff]
    exact hne
  have hflat : ((align_timestamps [seg] d).map (fun out => pySplit out.text)).flatten =
      pySplit seg.text := by
    rw [halign, splitLoop_eq_slices _ _ _ hne 0, List.drop_zero,
      filterMap_join_texts]
    · have hsnd : (fun p : (String × ℚ × ℚ) × List PyStr => p.2) =
        (Prod.snd : (String × ℚ × ℚ) × List PyStr → List PyStr) := rfl
      rw [hsnd, List.map_snd_zip, sliceByCounts_flatten _ _ hcs]
      rw [sliceByCounts_length]
      simp [claimCounts]
    · intro p hp w hw
      obtain ⟨tp, piece⟩ := p
      obtain ⟨_, h2⟩ := List.of_mem_zip hp
      exact pySplit_words seg.text w (sliceByCounts_mem_mem _ _ _ h2 w hw)
  refine ⟨hflat, ?_⟩
  intro hwne hnil
  rw [hnil] at hflat
  simp at hflat
  exact hwne hflat

/-- Witness for the amended C2 at the specification's own worked example. -/
theorem C2_amended_word_preservation_witness :
    ((align_timestamps [⟨3, 7, "Hello world how are you".toList⟩]
        ⟨[⟨0, 5, "SPEAKER_00"⟩, ⟨5, 10, "SPEAKER_01"⟩], 2, 10⟩).map
      (fun out => pySplit out.text)).flatten =
        pySplit (("Hello world how are you".toList : PyStr))
    ∧ (pySplit (("Hello world how are you".toList : PyStr)) ≠ [] →
        align_timestamps [⟨3, 7, "Hello world how are you".toList⟩]
          ⟨[⟨0, 5, "SPEAKER_00"⟩, ⟨5, 10, "SPEAKER_01"⟩], 2, 10⟩ ≠ []) :=
  C2_amended_word_preservation ⟨[⟨0, 5, "SPEAKER_00"⟩, ⟨5, 10, "SPEAKER_01"⟩], 2, 10⟩
    ⟨3, 7, "Hello world how are you".toList⟩ (by decide) (by decide) (by decide)

/-- C5: with diarization enabled and a unified pipeline configured, an
authentication error from the pipeline is re-raised unchanged; the fallback
transcriber is never invoked and no output file (nor intermediate file) is
written. -/
theorem C5_auth_error_propagates (m : String) (tr : Option TranscriberRun)
    (f : FormatOutcome) (p : OPath) (ki : Bool) :
    orchestrate ⟨some (PipelineOutcome.authError m), tr, f⟩ p true ki =
      (Except.error (OrchError.authError m), [OEvent.pipelineInvoked])
    ∧ OEvent.fallbackInvoked ∉
        (orchestrate ⟨some (PipelineOutcome.authError m), tr, f⟩ p true ki).2
    ∧ (∀ path content, OEvent.wrote path content ∉
        (orchestrate ⟨some (PipelineOutcome.authError m), tr, f⟩ p true ki).2)
    ∧ (∀ path, OEvent.wroteIntermediate path ∉
        (orchestrate ⟨some (PipelineOutcome.authError m), tr, f⟩ p true ki).2) := by
  refine ⟨rfl, ?_, ?_, ?_⟩
  · simp [orchestrate]
  · intro path content
    simp [orchestrate]
  · intro path
    simp [orchestrate]

/-- C6: with diarization enabled, a generic diarization error from the
pipeline and a fallback transcriber configured, the result reports
`diarization_succeeded = false`, the output path carries the plain `.txt`
extension, and the saved text contains every fallback segment's text; with no
fallback configured, a diarization error stating the fallback's absence is
raised instead. -/
theorem C6_generic_error_fallback (m : String) (tr : TranscriberRun)
    (f : FormatOutcome) (p : OPath) (ki : Bool) :
    (orchestrate ⟨some (PipelineOutcome.diarizationError m), some tr, f⟩ p true ki).1 =
      Except.ok ⟨withSuffix p ".txt", 0, tr.audio_duration, false⟩
    ∧ (withSuffix p ".txt").ext = ".txt"
    ∧ OEvent.wrote (withSuffix p ".txt") (plainContent tr.segments) ∈
        (orchestrate ⟨some (PipelineOutcome.diarizationError m), some tr, f⟩ p true ki).2
    ∧ (∀ s ∈ tr.segments, ∃ a b, plainContent tr.segments = a ++ (s.text ++ b))
    ∧ orchestrate ⟨some (PipelineOutcome.diarizationError m), none, f⟩ p true ki =
        (Except.error (OrchError.diarizationError
          ("Diarization failed and no fallback transcriber available: " ++ m)),
          [OEvent.pipelineInvoked]) := by
  refine ⟨rfl, rfl, ?_, plainContent_contains tr.segments, rfl⟩
  simp [orchestrate]

/-- C7: when the pipeline succeeds but formatting raises, the exception is
not propagated: a plain `.txt` transcript of the segments is saved and the
result flips `diarization_succeeded` to false. -/
theorem C7_formatting_failure_recovered (segments : List OrchSegment)
    (spk : ℕ) (dur : ℚ) (tr : Option TranscriberRun) (m : String)
    (p : OPath) (ki : Bool) :
    (orchestrate ⟨some (PipelineOutcome.success segments spk dur), tr,
        FormatOutcome.raises m⟩ p true ki).1 =
      Except.ok ⟨withSuffix p ".txt", spk, dur, false⟩
    ∧ OEvent.wrote (withSuffix p ".txt") (plainContent segments) ∈
        (orchestrate ⟨some (PipelineOutcome.success segments spk dur), tr,
          FormatOutcome.raises m⟩ p true ki).2 := by
  cases ki <;> exact ⟨rfl, by simp [orchestrate]⟩

/-- C8: a diarization-requesting job processed with no resolvable
HuggingFace credential ends `PARTIAL` with error code `"hf_token_required"`
and the (non-empty) plain transcript as its result text; the diarization
pipeline is never attempted. -/
theorem C8_missing_token_partial (job : Job) (plain : PyStr) (language : String)
    (orch : WorkerOrchOutcome) (hdz : job.diarize = true) (hplain : plain ≠ []) :
    (run_transcription_with_orchestrator job.diarize none plain language orch).2 = false
    ∧ (updateJobWithResult job
        (run_transcription_with_orchestrator job.diarize none plain language orch).1).status =
        JobStatus.PARTIAL
    ∧ (updateJobWithResult job
        (run_transcription_with_orchestrator job.diarize none plain language orch).1).diarization_error_code =
        some "hf_token_required"
    ∧ (updateJobWithResult job
        (run_transcription_with_orchestrator job.diarize none plain language orch).1).result_text =
        some plain
    ∧ plain ≠ [] := by
  rw [hdz]
  have hcode : ("hf_token_required" : String).isEmpty = false := by decide
  refine ⟨rfl, ?_, ?_, ?_, hplain⟩ <;>
    simp [run_transcription_with_orchestrator, tokenFalsy,
      updateJobWithResult, codeTruthy, hcode]

/-- Witness for C8 on a concrete queued job. -/
theorem C8_missing_token_partial_witness :
    (run_transcription_with_orchestrator true none ("hello".toList) "en"
        (WorkerOrchOutcome.ok [] false 0)).2 = false
    ∧ (updateJobWithResult ⟨none, none, none, none, true, JobStatus.PROCESSING, none, none⟩
        (run_transcription_with_orchestrator true none ("hello".toList) "en"
          (WorkerOrchOutcome.ok [] false 0)).1).status = JobStatus.PARTIAL
    ∧ (updateJobWithResult ⟨none, none, none, none, true, JobStatus.PROCESSING, none, none⟩
        (run_transcription_with_orchestrator true none ("hello".toList) "en"
          (WorkerOrchOutcome.ok [] false 0)).1).diarization_error_code =
        some "hf_token_required"
    ∧ (updateJobWithResult ⟨none, none, none, none, true, JobStatus.PROCESSING, none, none⟩
        (run_transcription_with_orchestrator true none ("hello".toList) "en"
          (WorkerOrchOutcome.ok [] false 0)).1).result_text = some ("hello".toList)
    ∧ ("hello".toList : PyStr) ≠ [] :=
  C8_missing_token_partial ⟨none, none, none, none, true, JobStatus.PROCESSING, none, none⟩
    ("hello".toList) "en" (WorkerOrchOutcome.ok [] false 0) rfl (by decide)

/-- Counterexample to C9 as stated: a job carrying an *empty* result text and
an *empty* diarization error is still classified as a retry by the code
(`is not None` checks), where the claim demands non-emptiness and would
classify it as a first attempt. -/
theorem C9_counterexample :
    is_retry ⟨some [], none, some "", none, true, JobStatus.PARTIAL, none, none⟩ = true
    ∧ (⟨some [], none, some "", none, true, JobStatus.PARTIAL, none,
        none⟩ : Job).result_text = some []
    ∧ (⟨some [], none, some "", none, true, JobStatus.PARTIAL, none,
        none⟩ : Job).diarization_error = some "" := by
  exact ⟨rfl, rfl, rfl⟩

/-- C9 (amended): the worker classifies a job as a retry iff it carries a
result-text value and a diarization-error value — presence (`is not None`),
not non-emptiness, is what is consulted. -/
theorem C9_amended_retry_detection (job : Job) :
    is_retry job = true ↔ job.result_text ≠ none ∧ job.diarization_error ≠ none := by
  cases h1 : job.result_text <;> cases h2 : job.diarization_error <;>
    simp [is_retry, h1, h2]

example : pySplit "a b  c".toList = ["a".toList, "b".toList, "c".toList] := by decide

example : pyJoin [' '] ["ab".toList, "c".toList] = "ab c".toList := by decide

example : pyTrunc ((3:ℚ) * (1/2)) = 1 := by decide

example : pyRound ((3:ℚ) * (1/2)) = 2 := by decide

example :
    align_timestamps [⟨3, 7, "Hello world how are you".toList⟩]
      ⟨[⟨0, 5, "SPEAKER_00"⟩, ⟨5, 10, "SPEAKER_01"⟩], 2, 10⟩ =
    [⟨3, 5, "SPEAKER_00", "Hello world".toList⟩,
     ⟨5, 7, "SPEAKER_01", "how are you".toList⟩] := by decide

end Cesar
